import Mathlib

/-!
Shallow embedding of the suricata-verify test runner (`run.py`).

The embedding models the Python program over a JSON-like value type
`Json` (the structures produced by `yaml.safe_load` / `json.loads`):
test specifications, events of the event log, and check configurations
are all `Json` values.  Python exceptions are modelled with `Except`:
`Exc.test` is `TestError`, `Exc.unsat` is `UnsatisfiedRequirementError`,
and `Exc.py` stands for any other (uncaught) Python exception such as
`TypeError`, `KeyError` or `AttributeError`.

Filesystem and process side effects are abstracted into an `Env`
record (the executing uid, the subject's feature set and version, the
globbed pcap/rule files of the test directory, and the per-iteration
exit codes and check outcomes); everything else is translated
line-by-line from the source.
-/

/-- JSON-like values as produced by `json.loads` / `yaml.safe_load`.
Numbers are modelled as integers (the values the program compares are
counts, uids and exit codes); mappings are association lists with
unique keys, in insertion order. -/
inductive Json where
  | null : Json
  | bool : Bool → Json
  | int : Int → Json
  | str : String → Json
  | arr : List Json → Json
  | obj : List (String × Json) → Json
  deriving Repr

mutual
/-- Syntactic equality of JSON values (helper; Python `==` is decided
by `pyEq` below, through the canonical form `normJ`). -/
def jsonBeq : Json → Json → Bool
  | .null, .null => true
  | .bool a, .bool b => a == b
  | .int a, .int b => a == b
  | .str a, .str b => a == b
  | .arr a, .arr b => jsonBeqList a b
  | .obj a, .obj b => jsonBeqKvs a b
  | _, _ => false

/-- `jsonBeq` on lists of values. -/
def jsonBeqList : List Json → List Json → Bool
  | [], [] => true
  | a :: as, b :: bs => jsonBeq a b && jsonBeqList as bs
  | _, _ => false

/-- `jsonBeq` on association lists. -/
def jsonBeqKvs : List (String × Json) → List (String × Json) → Bool
  | [], [] => true
  | (ka, va) :: as, (kb, vb) :: bs => ka == kb && jsonBeq va vb && jsonBeqKvs as bs
  | _, _ => false
end

instance : BEq Json := ⟨jsonBeq⟩

/-- Python exceptions relevant to the runner: `TestError`,
`UnsatisfiedRequirementError`, and any other uncaught exception
(`TypeError`, `KeyError`, `AttributeError`, ...). -/
inductive Exc where
  | test : String → Exc
  | unsat : String → Exc
  | py : Exc
  deriving DecidableEq, Repr

/-- Characters Python treats as whitespace for `str.strip()` and the
regex class `\s`. -/
def pyIsSpace (c : Char) : Bool :=
  c = ' ' || c = '\t' || c = '\n' || c = '\x0d' || c = '\x0b' || c = '\x0c'

/-- Value of a (nonempty) string of decimal digits, as Python's `int()`. -/
def digitsVal (ds : List Char) : Nat :=
  ds.foldl (fun acc c => acc * 10 + (c.toNat - 48)) 0

/-- Python truthiness (`if not requires: ...`). -/
def pyTruthy : Json → Bool
  | .null => false
  | .bool b => b
  | .int n => n != 0
  | .str s => !s.data.isEmpty
  | .arr l => !l.isEmpty
  | .obj kvs => !kvs.isEmpty

/-- Substring test: Python `pat in hay` for strings. -/
def strContains (hay pat : String) : Bool :=
  (List.range (hay.data.length + 1)).any fun i => pat.data.isPrefixOf (hay.data.drop i)

/-- Python membership `name in obj`.  For a mapping this is key
membership; for a sequence, membership among the elements; for a
string, a substring test; for `None`, numbers and booleans, `in`
raises `TypeError`. -/
def memJ (name : String) (obj : Json) : Except Unit Bool :=
  match obj with
  | .obj kvs => .ok (kvs.any fun kv => kv.1 == name)
  | .arr l => .ok (l.any fun e => match e with | .str s => s == name | _ => false)
  | .str s => .ok (strContains s name)
  | _ => .error ()

/-- Python subscription `obj[key]` with a string key: a mapping lookup
(`KeyError` when absent), `TypeError` on any non-mapping. -/
def getItem (obj : Json) (key : String) : Except Unit Json :=
  match obj with
  | .obj kvs =>
    match kvs.lookup key with
    | some v => .ok v
    | none => .error ()
  | _ => .error ()

/-- Python subscription `obj[i]` with an integer index, as used inside
the `try`/`except` of `find_value`: a sequence yields the element when
in range; a string yields the one-character string; everything else
(`IndexError`, `KeyError` on a string-keyed mapping, `TypeError`) is
modelled as `none`, since the caller catches every exception. -/
def getIdx (obj : Json) (i : Nat) : Option Json :=
  match obj with
  | .arr l => l.get? i
  | .str s => (s.data.get? i).map fun c => .str (String.mk [c])
  | _ => none

/-- Python iteration `for x in obj`: a sequence yields its elements, a
mapping its keys, a string its one-character strings; iterating
anything else raises `TypeError`. -/
def iterElems : Json → Except Unit (List Json)
  | .arr l => .ok l
  | .obj kvs => .ok (kvs.map fun kv => .str kv.1)
  | .str s => .ok (s.data.map fun c => .str (String.mk [c]))
  | _ => .error ()

/-- Strict lexicographic order on character lists (helper: a total
order on keys for the canonical form used to decide Python `==`). -/
def charListLt : List Char → List Char → Bool
  | [], [] => false
  | [], _ :: _ => true
  | _ :: _, [] => false
  | a :: as, b :: bs =>
    if a.toNat < b.toNat then true
    else if b.toNat < a.toNat then false
    else charListLt as bs

/-- Insert a key-value pair into a key-sorted association list
(helper for the canonical form used to decide Python `==`). -/
def insertKey (p : String × Json) : List (String × Json) → List (String × Json)
  | [] => [p]
  | q :: qs => if charListLt p.1.data q.1.data then p :: q :: qs else q :: insertKey p qs

/-- Sort an association list by key (helper for `normJ`). -/
def sortKvs (kvs : List (String × Json)) : List (String × Json) :=
  kvs.foldr insertKey []

mutual
/-- Canonical form deciding Python equality `==` on JSON values:
`True == 1` and `False == 0` in Python, so booleans normalise to
integers; mapping comparison ignores insertion order, so mappings are
sorted by key.  Two JSON values are Python-equal iff their canonical
forms are syntactically equal. -/
def normJ : Json → Json
  | .null => .null
  | .bool b => .int (if b then 1 else 0)
  | .int n => .int n
  | .str s => .str s
  | .arr l => .arr (normList l)
  | .obj kvs => .obj (sortKvs (normKvs kvs))

/-- `normJ` mapped over a list of values. -/
def normList : List Json → List Json
  | [] => []
  | x :: xs => normJ x :: normList xs

/-- `normJ` mapped over the values of an association list. -/
def normKvs : List (String × Json) → List (String × Json)
  | [] => []
  | (k, v) :: xs => (k, normJ v) :: normKvs xs
end

/-- Python equality `==` between JSON values. -/
def pyEq (a b : Json) : Bool :=
  normJ a == normJ b

/-- The single-quote character, used by Python `repr` of strings. -/
def sQuote : String := String.mk [Char.ofNat 39]

mutual
/-- Python `str()` of a JSON value (as used by `"%s" % v` and
`str(v)`): `None`/`True`/`False`, decimal integers, the string itself,
and container reprs.  String escaping inside container reprs is not
modelled (strings containing quote or backslash characters would be
escaped by Python). -/
def pyStr : Json → String
  | .null => "None"
  | .bool true => "True"
  | .bool false => "False"
  | .int n => toString n
  | .str s => s
  | .arr l => "[" ++ pyReprList l ++ "]"
  | .obj kvs => "\x7b" ++ pyReprObj kvs ++ "\x7d"

/-- Python `repr()` of a JSON value: like `pyStr` except strings are
single-quoted. -/
def pyRepr : Json → String
  | .str s => sQuote ++ s ++ sQuote
  | .null => "None"
  | .bool true => "True"
  | .bool false => "False"
  | .int n => toString n
  | .arr l => "[" ++ pyReprList l ++ "]"
  | .obj kvs => "\x7b" ++ pyReprObj kvs ++ "\x7d"

/-- Comma-separated `repr`s of list elements. -/
def pyReprList : List Json → String
  | [] => ""
  | [x] => pyRepr x
  | x :: xs => pyRepr x ++ ", " ++ pyReprList xs

/-- Comma-separated `'key': repr` pairs of a mapping. -/
def pyReprObj : List (String × Json) → String
  | [] => ""
  | [(k, v)] => sQuote ++ k ++ sQuote ++ ": " ++ pyRepr v
  | (k, v) :: xs => sQuote ++ k ++ sQuote ++ ": " ++ pyRepr v ++ ", " ++ pyReprObj xs
end

/-- Python `"%d" % v`: formats an integer (or a boolean, which is an
`int` subclass) in decimal; raises `TypeError` on anything else. -/
def fmtD : Json → Except Unit String
  | .int n => .ok (toString n)
  | .bool true => .ok "1"
  | .bool false => .ok "0"
  | _ => .error ()

/-- The `SuricataVersion` namedtuple: major, minor, patch, each
possibly `None`.  (`parse_suricata_version` always fills `major` when
it returns a version, since the first regex group is mandatory, but
the tuple itself allows `None` everywhere.) -/
structure SuricataVersion where
  major : Option Nat
  minor : Option Nat
  patch : Option Nat
  deriving DecidableEq, Repr

/-- Python `str.strip()`: drop leading and trailing whitespace. -/
def pyStrip (cs : List Char) : List Char :=
  ((cs.dropWhile pyIsSpace).reverse.dropWhile pyIsSpace).reverse

/-- The optional-dot step of one regex group `\.?`: consume one dot
when the input starts with one. -/
def dotTail (cs : List Char) : List Char :=
  if cs.head? = some '.' then cs.tail else cs

/-- One optional-group step of the version regex: `\.?(\d+)?` with
greedy matching — consume one dot if present, then a maximal (possibly
empty) digit run; an empty run leaves the group unmatched (`None`). -/
def takeGroup (cs : List Char) : Option Nat × List Char :=
  (if ((dotTail cs).takeWhile Char.isDigit).isEmpty then none
   else some (digitsVal ((dotTail cs).takeWhile Char.isDigit)),
   (dotTail cs).dropWhile Char.isDigit)

/-- `re.search("(\d+)\.?(\d+)?\.?(\d+)?.*", ...)` on a character list:
the pattern matches at the first digit; group 1 is the maximal digit
run there; each further group greedily consumes an optional dot and an
optional digit run; the trailing `.*` discards the rest. -/
def searchCore (cs : List Char) : Option SuricataVersion :=
  match cs.dropWhile (fun c => !c.isDigit) with
  | [] => none
  | rest@(_ :: _) =>
    let d1 := rest.takeWhile Char.isDigit
    let r1 := rest.dropWhile Char.isDigit
    let (g2, r2) := takeGroup r1
    let (g3, _) := takeGroup r2
    some { major := some (digitsVal d1), minor := g2, patch := g3 }

/-- `parse_suricata_version`: strip the input and search for up to
three dot-separated digit groups. -/
def parse_suricata_version (s : String) : Option SuricataVersion :=
  searchCore (pyStrip s.data)

/-- `version_equal`: major must match; minor and patch are each
compared only when both sides carry them. -/
def version_equal (a b : SuricataVersion) : Bool :=
  if !(a.major == b.major) then false
  else if a.minor.isSome && b.minor.isSome && !(a.minor == b.minor) then false
  else if a.patch.isSome && b.patch.isSome && !(a.patch == b.patch) then false
  else true

/-- Python 2 `<` on possibly-`None` integers, as used by
`version_gte`: `None` compares below every integer. -/
def optLt (a b : Option Nat) : Bool :=
  match a, b with
  | none, none => false
  | none, some _ => true
  | some _, none => false
  | some x, some y => x < y

/-- `version_gte`: lexicographic ≥ on (major, minor, patch) with the
Python 2 `None`-below-integers ordering. -/
def version_gte (v1 v2 : SuricataVersion) : Bool :=
  if optLt v1.major v2.major then false
  else if optLt v2.major v1.major then true
  else if optLt v1.minor v2.minor then false
  else if optLt v2.minor v1.minor then true
  else if optLt v1.patch v2.patch then false
  else true

/-- Split one dotted path component into a name and an optional
bracketed index: the regex `^(.*)\[(\d+)\]$` with a greedy group 1
matches exactly when the component ends in `]` and the characters
between the last `[` and that final `]` form a nonempty digit run. -/
def parsePart (part : String) : String × Option Nat :=
  match part.data.reverse with
  | ']' :: rest =>
    let ds := rest.takeWhile Char.isDigit
    (match rest.dropWhile Char.isDigit with
     | '[' :: pre =>
       if ds.isEmpty then (part, none)
       else (String.mk pre.reverse, some (digitsVal ds.reverse))
     | _ => (part, none))
  | _ => (part, none)

/-- The loop of `find_value` over the dot-separated path components.
For each component: test `name in obj` (which can raise on non-mapping
nodes — see `memJ`); a missing mapping key returns `None`
(`Json.null`); subscripting with the name after a successful
membership test on a sequence or string raises `TypeError`; an
optional bracket index is applied inside `try`/`except`, every
exception yielding `None`. -/
def findValueParts : List String → Json → Except Unit Json
  | [], obj => .ok obj
  | part :: rest, obj =>
    match obj with
    | .obj kvs =>
      match kvs.lookup (parsePart part).1 with
      | none => .ok .null
      | some v =>
        match (parsePart part).2 with
        | none => findValueParts rest v
        | some i =>
          match getIdx v i with
          | none => .ok .null
          | some w => findValueParts rest w
    | .arr l =>
      if l.any (fun e => match e with | .str s => s == (parsePart part).1 | _ => false)
      then .error () else .ok .null
    | .str s =>
      if strContains s (parsePart part).1 then .error () else .ok .null
    | _ => .error ()

/-- Python `name.split(".")` on a character list: maximal runs between
dots, with empty runs kept (`"".split(".") == [""]`). -/
def splitDot : List Char → List (List Char)
  | [] => [[]]
  | c :: rest =>
    if c = '.' then [] :: splitDot rest
    else
      match splitDot rest with
      | t :: ts => (c :: t) :: ts
      | [] => [[c]]

/-- `find_value(name, obj)`: split the path on dots and walk the
structure.  The absent marker is Python `None` (`Json.null`); an
`Except.error` is a raised exception. -/
def find_value (name : String) (obj : Json) : Except Unit Json :=
  findValueParts ((splitDot name.data).map String.mk) obj

/-- The event-log scan of `StatsCheck.run`: walk the decoded lines of
`eve.json`, keeping `event["stats"]` of every event whose
`event_type` equals `"stats"` — the last one survives.  The
accumulator starts as Python `None` (`Json.null`); a missing
`event_type` or `stats` key, or a non-mapping line, raises. -/
def statsScanAux : List Json → Json → Except Unit Json
  | [], acc => .ok acc
  | e :: rest, acc =>
    match getItem e "event_type" with
    | .error _ => .error ()
    | .ok t =>
      if pyEq t (.str "stats") then
        match getItem e "stats" with
        | .error _ => .error ()
        | .ok s => statsScanAux rest s
      else statsScanAux rest acc

/-- The `stats` substructure retained by `StatsCheck.run` for a log. -/
def statsScan (evs : List Json) : Except Unit Json :=
  statsScanAux evs .null

/-- The key loop of `StatsCheck.run`: for every declared key, resolve
it against the retained stats structure and require Python equality
with the declared value; the first mismatch raises a `TestError`
naming the key, the expected and the actual value. -/
def statsCheckKeys (stats : Json) : List (String × Json) → Except Exc Bool
  | [] => .ok true
  | (k, expected) :: rest =>
    match find_value k stats with
    | .error _ => .error .py
    | .ok val =>
      if !pyEq val expected then
        .error (.test ("stats." ++ k ++ ": expected " ++ pyStr expected ++ "; got " ++ pyStr val))
      else statsCheckKeys stats rest

/-- `StatsCheck.run` on a decoded event log.  The check configuration
is the mapping under the `stats` key of the check entry; iterating a
non-mapping configuration either iterates nothing (empty string or
sequence) or ends in an uncaught exception: every key drawn from a
nonempty string or sequence makes `find_value` or the
`self.config[key]` subscription raise. -/
def statsCheckRun (cfg : Json) (evs : List Json) : Except Exc Bool :=
  match statsScan evs with
  | .error _ => .error .py
  | .ok stats =>
    match cfg with
    | .obj kvs => statsCheckKeys stats kvs
    | .str s => if s.data.isEmpty then .ok true else .error .py
    | .arr l => if l.isEmpty then .ok true else .error .py
    | _ => .error .py

/-- The entry loop of `FilterCheck.match`: every declared entry must
hold — `has-key` requires the resolved path to be non-`None`,
`not-has-key` requires it to be `None`, and any other key is a Python
equality test between the resolved value and the declared one.  A
non-string path under `has-key`/`not-has-key` raises inside
`find_value` (`.split` on a non-string). -/
def filterMatchEntries (event : Json) : List (String × Json) → Except Exc Bool
  | [] => .ok true
  | (key, expected) :: rest =>
    if key == "has-key" then
      match expected with
      | .str p =>
        match find_value p event with
        | .error _ => .error .py
        | .ok v =>
          match v with
          | .null => .ok false
          | _ => filterMatchEntries event rest
      | _ => .error .py
    else if key == "not-has-key" then
      match expected with
      | .str p =>
        match find_value p event with
        | .error _ => .error .py
        | .ok v =>
          match v with
          | .null => filterMatchEntries event rest
          | _ => .ok false
      | _ => .error .py
    else
      match find_value key event with
      | .error _ => .error .py
      | .ok v => if !pyEq v expected then .ok false else filterMatchEntries event rest

/-- `FilterCheck.match(event)`: look up the `match` mapping of the
configuration (raising on a missing key or a non-mapping value, as
`.items()` would) and test every entry. -/
def filterMatch (cfg event : Json) : Except Exc Bool :=
  match getItem cfg "match" with
  | .error _ => .error .py
  | .ok m =>
    match m with
    | .obj kvs => filterMatchEntries event kvs
    | _ => .error .py

/-- The counting loop of `FilterCheck.run`: the number of events of
the log that match, the first raised exception propagating. -/
def filterCount (cfg : Json) : List Json → Except Exc Nat
  | [] => .ok 0
  | e :: rest =>
    match filterMatch cfg e with
    | .error err => .error err
    | .ok b =>
      match filterCount cfg rest with
      | .error err => .error err
      | .ok n => .ok (if b then n + 1 else n)

/-- `FilterCheck.run` on a decoded event log (the log file stands for
its decoded lines; the existence check on the file is outside the
model).  The matching-event count must equal the declared `count`;
otherwise a `TestError` names the expected and actual counts, prefixed
by the declared `comment` when there is one. -/
def filterCheckRun (cfg : Json) (evs : List Json) : Except Exc Bool :=
  match filterCount cfg evs with
  | .error err => .error err
  | .ok count =>
    match getItem cfg "count" with
    | .error _ => .error .py
    | .ok declared =>
      if pyEq (.int count) declared then .ok true
      else
        match memJ "comment" cfg with
        | .error _ => .error .py
        | .ok true =>
          match getItem cfg "comment" with
          | .error _ => .error .py
          | .ok c =>
            match fmtD declared with
            | .error _ => .error .py
            | .ok d =>
              .error (.test (pyStr c ++ ": expected " ++ d ++ ", got " ++ toString count))
        | .ok false =>
          match fmtD declared with
          | .error _ => .error .py
          | .ok d =>
            .error (.test ("expected " ++ d ++ " matches; got " ++ toString count ++
              " for filter " ++ pyStr cfg))

/-- The runner's environment: everything `TestRunner` reads from the
operating system, the subject binary and the test directory, other
than the specification document itself.  `pcapFiles` and `ruleFiles`
are the glob results for `*.pcap`/`*.pcapng` and `*.rules` in the test
directory; `exitCode` and `checkRes` give, per loop iteration, the
subject process's exit status and the outcome of `TestRunner.check()`
(the `checks` section together with the legacy `check.sh` script);
`scriptOk` tells whether a `requires` script exits zero. -/
structure Env where
  uid : Nat
  features : List String
  version : SuricataVersion
  envVars : List String
  files : List String
  scriptOk : String → Bool
  pcapFiles : List String
  ruleFiles : List String
  valgrind : Bool
  hasSuricataYaml : Bool
  cwd : String
  outputDir : String
  testDir : String
  name : String
  exitCode : Nat → Int
  checkRes : Nat → Except Exc Bool

/-- Python 2 `feature in self.features` (a set of strings) for an
arbitrary key: strings are looked up, other hashable scalars are
simply not members, and unhashable containers raise `TypeError`. -/
def setMem (features : List String) : Json → Except Unit Bool
  | .str s => .ok (features.contains s)
  | .arr _ => .error ()
  | .obj _ => .error ()
  | _ => .ok false

/-- The `uid` clause of one `skip` entry of `TestRunner.check_skip`:
when the executing uid equals the declared one, raise
`UnsatisfiedRequirementError` with the declared `msg` or the default
`"not for uid %d"` message. -/
def skipUid (env : Env) (skip : Json) : Except Exc Unit :=
  match memJ "uid" skip with
  | .error _ => .error .py
  | .ok false => .ok ()
  | .ok true =>
    match getItem skip "uid" with
    | .error _ => .error .py
    | .ok u =>
      if pyEq (.int (Int.ofNat env.uid)) u then
        match memJ "msg" skip with
        | .error _ => .error .py
        | .ok true =>
          match getItem skip "msg" with
          | .error _ => .error .py
          | .ok m => .error (.unsat (pyStr m))
        | .ok false =>
          match fmtD u with
          | .error _ => .error .py
          | .ok d => .error (.unsat ("not for uid " ++ d))
      else .ok ()

/-- The `feature` clause of one `skip` entry of
`TestRunner.check_skip`: when the subject's feature set contains the
declared feature, raise with the declared `msg` or the default
`"not for feature %s"` message. -/
def skipFeature (env : Env) (skip : Json) : Except Exc Unit :=
  match memJ "feature" skip with
  | .error _ => .error .py
  | .ok false => .ok ()
  | .ok true =>
    match getItem skip "feature" with
    | .error _ => .error .py
    | .ok f =>
      match setMem env.features f with
      | .error _ => .error .py
      | .ok false => .ok ()
      | .ok true =>
        match memJ "msg" skip with
        | .error _ => .error .py
        | .ok true =>
          match getItem skip "msg" with
          | .error _ => .error .py
          | .ok m => .error (.unsat (pyStr m))
        | .ok false => .error (.unsat ("not for feature " ++ pyStr f))

/-- The loop of `TestRunner.check_skip` over the declared `skip`
entries: each entry's `uid` clause, then its `feature` clause. -/
def checkSkipList (env : Env) : List Json → Except Exc Unit
  | [] => .ok ()
  | skip :: rest =>
    match skipUid env skip with
    | .error e => .error e
    | .ok _ =>
      match skipFeature env skip with
      | .error e => .error e
      | .ok _ => checkSkipList env rest

/-- `TestRunner.check_skip`: nothing to do without a `skip` key,
otherwise iterate the declared entries. -/
def checkSkip (env : Env) (cfg : Json) : Except Exc Unit :=
  match memJ "skip" cfg with
  | .error _ => .error .py
  | .ok false => .ok ()
  | .ok true =>
    match getItem cfg "skip" with
    | .error _ => .error .py
    | .ok skips =>
      match iterElems skips with
      | .error _ => .error .py
      | .ok l => checkSkipList env l

/-- The `min-version` clause of `TestRunner.check_requires`: parse the
declared minimum (through `str()`), compare with `version_gte`; a
parse failure makes `version_gte` dereference `None` and raise. -/
def requiresMinVersion (env : Env) (req : Json) : Except Exc Unit :=
  match memJ "min-version" req with
  | .error _ => .error .py
  | .ok false => .ok ()
  | .ok true =>
    match getItem req "min-version" with
    | .error _ => .error .py
    | .ok v =>
      match parse_suricata_version (pyStr v) with
      | none => .error .py
      | some minVersion =>
        if !version_gte env.version minVersion then
          .error (.unsat ("requires at least version " ++ pyStr v))
        else .ok ()

/-- The `version` clause of `TestRunner.check_requires`: the subject's
version must be `version_equal` to the declared one. -/
def requiresVersion (env : Env) (req : Json) : Except Exc Unit :=
  match memJ "version" req with
  | .error _ => .error .py
  | .ok false => .ok ()
  | .ok true =>
    match getItem req "version" with
    | .error _ => .error .py
    | .ok v =>
      match parse_suricata_version (pyStr v) with
      | none => .error .py
      | some requiresVer =>
        if !version_equal env.version requiresVer then
          .error (.unsat ("only for version " ++ pyStr v))
        else .ok ()

/-- The loop over `requires["features"]`: every declared feature must
be in the subject's feature set. -/
def requiresFeaturesList (env : Env) : List Json → Except Exc Unit
  | [] => .ok ()
  | f :: rest =>
    match setMem env.features f with
    | .error _ => .error .py
    | .ok true => requiresFeaturesList env rest
    | .ok false => .error (.unsat ("requires feature " ++ pyStr f))

/-- The loop over `requires["env"]`: every declared name must be set
in the process environment. -/
def requiresEnvList (env : Env) : List Json → Except Exc Unit
  | [] => .ok ()
  | e :: rest =>
    match setMem env.envVars e with
    | .error _ => .error .py
    | .ok true => requiresEnvList env rest
    | .ok false => .error (.unsat ("requires env var " ++ pyStr e))

/-- Python `os.path.exists` applied to a declared `requires` file: a
string is looked up among the existing files; other values simply do
not exist. -/
def fileExists (env : Env) : Json → Bool
  | .str s => env.files.contains s
  | _ => false

/-- The loop over `requires["files"]`: every declared file must exist. -/
def requiresFilesList (env : Env) : List Json → Except Exc Unit
  | [] => .ok ()
  | f :: rest =>
    if fileExists env f then requiresFilesList env rest
    else .error (.unsat ("requires file " ++ pyStr f))

/-- The loop over `requires["script"]`: every declared script (run
through a shell on its `"%s"`-formatted text) must exit zero; any
failure is caught and reported as an unsatisfied requirement. -/
def requiresScriptList (env : Env) : List Json → Except Exc Unit
  | [] => .ok ()
  | s :: rest =>
    if env.scriptOk (pyStr s) then requiresScriptList env rest
    else .error (.unsat "requires script returned false")

/-- A clause of `check_requires` keyed in the `requires` mapping:
look the key up and run the loop body on the iterated value. -/
def requiresIterClause (req : Json) (key : String)
    (body : List Json → Except Exc Unit) : Except Exc Unit :=
  match memJ key req with
  | .error _ => .error .py
  | .ok false => .ok ()
  | .ok true =>
    match getItem req key with
    | .error _ => .error .py
    | .ok v =>
      match iterElems v with
      | .error _ => .error .py
      | .ok l => body l

/-- The final clause of `TestRunner.check_requires`: without a
declared `command`, a pcap is required (unless `requires["pcap"]` is
declared falsy), and when no explicit `pcap` path is declared the glob
of the test directory must be nonempty. -/
def requiresPcap (env : Env) (cfg req : Json) : Except Exc Unit :=
  match memJ "command" cfg with
  | .error _ => .error .py
  | .ok true => .ok ()
  | .ok false =>
    match
      (match memJ "pcap" req with
       | .error _ => Except.error Exc.py
       | .ok true =>
         match getItem req "pcap" with
         | .error _ => Except.error Exc.py
         | .ok v => Except.ok (pyTruthy v)
       | .ok false => Except.ok true) with
    | .error e => .error e
    | .ok pcapRequired =>
      if pcapRequired then
        match memJ "pcap" cfg with
        | .error _ => .error .py
        | .ok true => .ok ()
        | .ok false =>
          if env.pcapFiles.isEmpty then .error (.unsat "No pcap file found")
          else .ok ()
      else .ok ()

/-- The body of `TestRunner.check_requires` after the `requires`
mapping has been resolved: the clauses in source order — min-version,
version, features, env, files, script, pcap presence. -/
def checkRequiresBody (env : Env) (cfg req : Json) : Except Exc Unit :=
  match requiresMinVersion env req with
  | .error e => .error e
  | .ok _ =>
  match requiresVersion env req with
  | .error e => .error e
  | .ok _ =>
  match requiresIterClause req "features" (requiresFeaturesList env) with
  | .error e => .error e
  | .ok _ =>
  match requiresIterClause req "env" (requiresEnvList env) with
  | .error e => .error e
  | .ok _ =>
  match requiresIterClause req "files" (requiresFilesList env) with
  | .error e => .error e
  | .ok _ =>
  match requiresIterClause req "script" (requiresScriptList env) with
  | .error e => .error e
  | .ok _ => requiresPcap env cfg req

/-- `TestRunner.check_requires`: a declared but falsy `requires` value
returns immediately (skipping even the pcap-presence clause); an
absent one behaves as an empty mapping. -/
def checkRequires (env : Env) (cfg : Json) : Except Exc Unit :=
  match memJ "requires" cfg with
  | .error _ => .error .py
  | .ok true =>
    match getItem cfg "requires" with
    | .error _ => .error .py
    | .ok req =>
      if !pyTruthy req then .ok ()
      else checkRequiresBody env cfg req
  | .ok false => checkRequiresBody env cfg (.obj [])

/-- Python `re.split("\s", arg)`: split at every single whitespace
character (consecutive separators produce empty fields). -/
def splitWsAux : List Char → List Char → List String
  | [], acc => [String.mk acc.reverse]
  | c :: cs, acc =>
    if pyIsSpace c then String.mk acc.reverse :: splitWsAux cs []
    else splitWsAux cs (c :: acc)

/-- Whitespace-split of one declared extra argument. -/
def splitWs (s : String) : List String :=
  splitWsAux s.data []

/-- The `args` section of `TestRunner.default_args`: the declared
value must be a sequence (the source asserts its type) of strings
(each is whitespace-split by `re.split`, which rejects non-strings). -/
def configArgs (cfg : Json) : Except Exc (List String) :=
  match memJ "args" cfg with
  | .error _ => .error .py
  | .ok false => .ok []
  | .ok true =>
    match getItem cfg "args" with
    | .error _ => .error .py
    | .ok v =>
      match v with
      | .arr l =>
        l.foldr (fun a acc =>
          match a, acc with
          | .str s, .ok rest => .ok (splitWs s ++ rest)
          | _, _ => .error .py) (.ok [])
      | _ => .error .py

/-- The rule-file section of `TestRunner.default_args`: zero globbed
rule files fall back to `/dev/null`, exactly one is used, more than
one is a `TestError`. -/
def rulesArgs (env : Env) (args : List String) : Except Exc (List String) :=
  match env.ruleFiles with
  | [] => .ok (args ++ ["-S", "/dev/null"])
  | [r] => .ok (args ++ ["-S", r])
  | _ => .error (.test "More than 1 rule file found")

/-- `TestRunner.default_args`: the constructed invocation of the
subject binary — optional valgrind prefix, the binary, the declared
extra arguments, the fixed classification/reference/`-l` options, the
IPS-simulation flag when the test's name contains `"ips"`, the config
file, then the pcap input (an explicit declared path, or the single
globbed pcap file; more than one globbed pcap is a `TestError`) and
the rule file. -/
def default_args (env : Env) (cfg : Json) : Except Exc (List String) :=
  let valgrindArgs :=
    if env.valgrind then
      ["valgrind", "-v", "--error-exitcode=255",
       "--suppressions=" ++ env.cwd ++ "/qa/valgrind.suppress"]
    else []
  match configArgs cfg with
  | .error e => .error e
  | .ok extra =>
    let args1 := valgrindArgs ++ [env.cwd ++ "/src/suricata"] ++ extra ++
      ["--set", "classification-file=" ++ env.cwd ++ "/classification.config",
       "--set", "reference-config-file=" ++ env.cwd ++ "/reference.config",
       "--init-errors-fatal", "-l", env.outputDir]
    let args2 := args1 ++ (if strContains env.name "ips" then ["--simulate-ips"] else [])
    let args3 := args2 ++
      (if env.hasSuricataYaml then ["-c", env.testDir ++ "/suricata.yaml"]
       else ["-c", env.cwd ++ "/suricata.yaml"])
    match memJ "pcap" cfg with
    | .error _ => .error .py
    | .ok true =>
      match getItem cfg "pcap" with
      | .error _ => .error .py
      | .ok p => rulesArgs env (args3 ++ ["-r", pyStr p])
    | .ok false =>
      if env.pcapFiles.length > 1 then .error (.test "More than 1 pcap file found")
      else rulesArgs env (args3 ++
        (match env.pcapFiles with | [] => [] | p :: _ => ["-r", p]))

/-- What one run of `TestRunner.run` did: how many times the subject
process was spawned and how many times `TestRunner.check()` ran. -/
structure Trace where
  spawns : Nat
  checks : Nat
  deriving DecidableEq, Repr

/-- The args step of `TestRunner.run`: a declared literal `command`
(used as-is, through a shell), otherwise `default_args`. -/
def getArgs (env : Env) (cfg : Json) : Except Exc (List String) :=
  match memJ "command" cfg with
  | .error _ => .error .py
  | .ok true =>
    match getItem cfg "command" with
    | .error _ => .error .py
    | .ok c => .ok [pyStr c]
  | .ok false => default_args env cfg

/-- The repeat count of `TestRunner.run`: the declared `count` or 1;
`range()` accepts integers (negative ones iterate zero times) and
booleans, and raises on anything else. -/
def getCount (cfg : Json) : Except Exc Nat :=
  match memJ "count" cfg with
  | .error _ => .error .py
  | .ok false => .ok 1
  | .ok true =>
    match getItem cfg "count" with
    | .error _ => .error .py
    | .ok v =>
      match v with
      | .int n => .ok n.toNat
      | .bool b => .ok (if b then 1 else 0)
      | _ => .error .py

/-- The expected exit code of `TestRunner.run`: the declared
`exit-code` value, or 0. -/
def getExpectedExit (cfg : Json) : Except Exc Json :=
  match memJ "exit-code" cfg with
  | .error _ => .error .py
  | .ok false => .ok (.int 0)
  | .ok true =>
    match getItem cfg "exit-code" with
    | .error _ => .error .py
    | .ok v => .ok v

/-- The loop of `TestRunner.run`, iteration index first: spawn the
subject, compare its exit status against the expected one (a mismatch
is a `TestError`; formatting a non-integer declared exit code with
`%d` raises), then run `TestRunner.check()`; a false check result
returns `False`, and remaining iterations continue otherwise. -/
def runIters (env : Env) (expected : Json) (i : Nat) : Nat → Except Exc Bool × Trace
  | 0 => (.ok true, ⟨0, 0⟩)
  | n + 1 =>
    let r := env.exitCode i
    if !pyEq (.int r) expected then
      match fmtD expected with
      | .error _ => (.error .py, ⟨1, 0⟩)
      | .ok d =>
        (.error (.test ("got exit code " ++ toString r ++ ", expected " ++ d)), ⟨1, 0⟩)
    else
      match env.checkRes i with
      | .error e => (.error e, ⟨1, 1⟩)
      | .ok false => (.ok false, ⟨1, 1⟩)
      | .ok true =>
        let (res, t) := runIters env expected (i + 1) n
        (res, ⟨t.spawns + 1, t.checks + 1⟩)

/-- `TestRunner.run`: requirements gate, skip gate, argument vector,
repeat count and expected exit code, then the spawn/check loop.  The
returned `Trace` counts process spawns and check invocations. -/
def runTest (env : Env) (cfg : Json) : Except Exc Bool × Trace :=
  match checkRequires env cfg with
  | .error e => (.error e, ⟨0, 0⟩)
  | .ok _ =>
  match checkSkip env cfg with
  | .error e => (.error e, ⟨0, 0⟩)
  | .ok _ =>
  match getArgs env cfg with
  | .error e => (.error e, ⟨0, 0⟩)
  | .ok _ =>
  match getCount cfg with
  | .error e => (.error e, ⟨0, 0⟩)
  | .ok count =>
  match getExpectedExit cfg with
  | .error e => (.error e, ⟨0, 0⟩)
  | .ok expected => runIters env expected 0 count

/-- How `main()` reports one test's result: `True` counts as passed,
`False` and `TestError` as failed, `UnsatisfiedRequirementError` as
skipped, and any other exception crashes the suite. -/
inductive Outcome where
  | passed
  | failed
  | skipped
  | crashed
  deriving DecidableEq, Repr

/-- The classification `main()` applies to a test's result. -/
def classify : Except Exc Bool → Outcome
  | .ok true => .passed
  | .ok false => .failed
  | .error (.test _) => .failed
  | .error (.unsat _) => .skipped
  | .error .py => .crashed

/-- Guard for `find_value`: every path component that gets looked up
during the traversal is looked up in a mapping node (the short-circuit
cases — absent key, absent or ill-typed index — need no further
guard).  Under this guard `find_value` cannot raise. -/
def dictSteps : List String → Json → Bool
  | [], _ => true
  | part :: rest, obj =>
    match obj with
    | .obj kvs =>
      match kvs.lookup (parsePart part).1 with
      | none => true
      | some v =>
        match (parsePart part).2 with
        | none => dictSteps rest v
        | some i =>
          match getIdx v i with
          | none => true
          | some w => dictSteps rest w
    | _ => false

/-- A baseline environment for concrete instances: uid 0, no
features, version 4.0.3, no globbed files, every spawn exiting 0 and
every check passing. -/
def envBase : Env where
  uid := 0
  features := []
  version := { major := some 4, minor := some 0, patch := some 3 }
  envVars := []
  files := []
  scriptOk := fun _ => true
  pcapFiles := []
  ruleFiles := []
  valgrind := false
  hasSuricataYaml := false
  cwd := ""
  outputDir := ""
  testDir := ""
  name := ""
  exitCode := fun _ => 0
  checkRes := fun _ => .ok true

/-- An event the stats scan passes over without keeping it: its
`event_type` resolves and differs from `"stats"`. -/
def NonStatsEvent (ev : Json) : Prop :=
  ∃ t, getItem ev "event_type" = .ok t ∧ pyEq t (.str "stats") = false

/-- An event the stats scan can process: its `event_type` resolves,
and when it is `"stats"` its `stats` substructure resolves too. -/
def ScannableEvent (ev : Json) : Prop :=
  ∃ t, getItem ev "event_type" = .ok t ∧
    (pyEq t (.str "stats") = true → ∃ s, getItem ev "stats" = .ok s)

/-- What it takes for one declared match entry to hold of an event:
`has-key` needs the named path to resolve to a non-`None` value,
`not-has-key` needs it to resolve to `None`, and any other key is a
Python equality test between the resolved value and the declared one
(an entry whose resolution raises does not hold). -/
def matchEntryHolds (event : Json) (k : String) (expected : Json) : Bool :=
  if k == "has-key" then
    match expected with
    | .str p =>
      match find_value p event with
      | .ok .null => false
      | .ok _ => true
      | .error _ => false
    | _ => false
  else if k == "not-has-key" then
    match expected with
    | .str p =>
      match find_value p event with
      | .ok .null => true
      | _ => false
    | _ => false
  else
    match find_value k event with
    | .ok v => pyEq v expected
    | .error _ => false

/-- Characterisation of `version_equal` (helper shared by the
version-comparison claims). -/
theorem version_equal_iff (a b : SuricataVersion) :
    version_equal a b = true ↔
      (a.major = b.major ∧
       (∀ x y, a.minor = some x → b.minor = some y → x = y) ∧
       (∀ x y, a.patch = some x → b.patch = some y → x = y)) := by
  obtain ⟨ma, mia, pa⟩ := a
  obtain ⟨mb, mib, pb⟩ := b
  simp only [version_equal]
  cases mia <;> cases mib <;> cases pa <;> cases pb <;>
    simp [beq_iff_eq]

/-- C3: `version_equal(a, b)` holds iff the majors are equal, the
minors are equal whenever both sides specify a minor, and the patches
are equal whenever both sides specify a patch, the two wildcard levels
being independent; the concrete pairs 4/4.0.3, 4.0/4.0.3, 4.0.3/4.0.3
and 4.0.3/4 are equal, while 3/4.0.3, 4.0/4.1.3 and 4.0.2/4.0.3 are
not. -/
theorem claim_C3_version_equal_wildcards :
    (∀ a b : SuricataVersion, version_equal a b = true ↔
      (a.major = b.major ∧
       (∀ x y, a.minor = some x → b.minor = some y → x = y) ∧
       (∀ x y, a.patch = some x → b.patch = some y → x = y))) ∧
    version_equal ⟨some 4, none, none⟩ ⟨some 4, some 0, some 3⟩ = true ∧
    version_equal ⟨some 4, some 0, none⟩ ⟨some 4, some 0, some 3⟩ = true ∧
    version_equal ⟨some 4, some 0, some 3⟩ ⟨some 4, some 0, some 3⟩ = true ∧
    version_equal ⟨some 4, some 0, some 3⟩ ⟨some 4, none, none⟩ = true ∧
    version_equal ⟨some 3, none, none⟩ ⟨some 4, some 0, some 3⟩ = false ∧
    version_equal ⟨some 4, some 0, none⟩ ⟨some 4, some 1, some 3⟩ = false ∧
    version_equal ⟨some 4, some 0, some 2⟩ ⟨some 4, some 0, some 3⟩ = false :=
  ⟨version_equal_iff, by decide, by decide, by decide, by decide, by decide, by decide,
   by decide⟩

/-- C7: `version_equal` is symmetric. -/
theorem claim_C7_version_equal_symm (a b : SuricataVersion) :
    version_equal a b = version_equal b a := by
  have swap : ∀ x y : SuricataVersion, version_equal x y = true → version_equal y x = true := by
    intro x y hxy
    obtain ⟨h1, h2, h3⟩ := (version_equal_iff x y).mp hxy
    exact (version_equal_iff y x).mpr
      ⟨h1.symm, fun u v hu hv => (h2 v u hv hu).symm, fun u v hu hv => (h3 v u hv hu).symm⟩
  by_cases hab : version_equal a b = true
  · rw [hab, swap a b hab]
  · have hba : ¬ version_equal b a = true := fun hb => hab (swap b a hb)
    rw [Bool.not_eq_true] at hab hba
    rw [hab, hba]

/-- Helper: dropping a prefix whose elements all satisfy the predicate. -/
theorem dropWhile_append_all {α} (p : α → Bool) (l1 l2 : List α)
    (h : ∀ a ∈ l1, p a = true) : (l1 ++ l2).dropWhile p = l2.dropWhile p := by
  induction l1 with
  | nil => rfl
  | cons a tl ih =>
    simp only [List.cons_append, List.dropWhile_cons, h a (by simp)]
    exact ih fun x hx => h x (by simp [hx])

/-- Helper: taking across a prefix whose elements all satisfy the
predicate. -/
theorem takeWhile_append_all {α} (p : α → Bool) (l1 l2 : List α)
    (h : ∀ a ∈ l1, p a = true) : (l1 ++ l2).takeWhile p = l1 ++ l2.takeWhile p := by
  induction l1 with
  | nil => rfl
  | cons a tl ih =>
    simp only [List.cons_append, List.takeWhile_cons, h a (by simp), if_true]
    rw [ih fun x hx => h x (by simp [hx])]

/-- Helper: the head surviving `dropWhile` falsifies the predicate. -/
theorem head_dropWhile_false {α} (p : α → Bool) :
    ∀ {l : List α} {a : α} {rest : List α}, l.dropWhile p = a :: rest → p a = false := by
  intro l
  induction l with
  | nil => intro a rest h; simp [List.dropWhile] at h
  | cons b tl ih =>
    intro a rest h
    rw [List.dropWhile_cons] at h
    by_cases hb : p b = true
    · rw [if_pos hb] at h; exact ih h
    · rw [if_neg hb] at h
      cases h
      simpa using hb

/-- Helper: `takeWhile` of a list with a falsifying head is empty, and
`dropWhile` of it is itself. -/
theorem takeWhile_head_false {α} (p : α → Bool) (l : List α)
    (h : ∀ c, l.head? = some c → p c = false) :
    l.takeWhile p = [] ∧ l.dropWhile p = l := by
  cases l with
  | nil => simp
  | cons a tl => simp [List.takeWhile_cons, List.dropWhile_cons, h a rfl]

/-- Helper: the characters the runner strips are not digits. -/
theorem pyIsSpace_not_digit {c : Char} (h : pyIsSpace c = true) : c.isDigit = false := by
  simp only [pyIsSpace, Bool.or_eq_true, decide_eq_true_eq] at h
  rcases h with ((((h | h) | h) | h) | h) | h <;> subst h <;> rfl

/-- Helper: a digit survives `dropWhile pyIsSpace`. -/
theorem digit_mem_dropWhile_space {c : Char} (hc : c.isDigit = true) {l : List Char}
    (h : c ∈ l) : c ∈ l.dropWhile pyIsSpace := by
  rw [← List.takeWhile_append_dropWhile (p := pyIsSpace) (l := l)] at h
  rcases List.mem_append.mp h with h | h
  · have := pyIsSpace_not_digit (List.mem_takeWhile_imp h)
    rw [hc] at this
    cases this
  · exact h

/-- Helper: a string holds a digit iff its stripped form does. -/
theorem digit_mem_strip_iff (cs : List Char) :
    (∃ c ∈ pyStrip cs, c.isDigit = true) ↔ ∃ c ∈ cs, c.isDigit = true := by
  constructor
  · rintro ⟨c, hmem, hdig⟩
    refine ⟨c, ?_, hdig⟩
    unfold pyStrip at hmem
    rw [List.mem_reverse] at hmem
    have h1 : c ∈ (cs.dropWhile pyIsSpace).reverse :=
      (List.dropWhile_sublist _).mem hmem
    rw [List.mem_reverse] at h1
    exact (List.dropWhile_sublist _).mem h1
  · rintro ⟨c, hmem, hdig⟩
    refine ⟨c, ?_, hdig⟩
    unfold pyStrip
    rw [List.mem_reverse]
    apply digit_mem_dropWhile_space hdig
    rw [List.mem_reverse]
    exact digit_mem_dropWhile_space hdig hmem

/-- Helper: `searchCore` succeeds exactly on inputs holding a digit. -/
theorem searchCore_isSome_iff (cs : List Char) :
    (searchCore cs).isSome = true ↔ ∃ c ∈ cs, c.isDigit = true := by
  unfold searchCore
  rcases h : cs.dropWhile (fun c => !c.isDigit) with _ | ⟨d, rest⟩ <;> rw [h]
  · rw [List.dropWhile_eq_nil_iff] at h
    simp only [Option.isSome_none, Bool.false_eq_true, false_iff]
    rintro ⟨c, hmem, hdig⟩
    have := h c hmem
    rw [hdig] at this
    cases this
  · simp only [Option.isSome_some, true_iff]
    have hd : d.isDigit = true := by
      have := head_dropWhile_false _ h
      simpa using this
    have hmem : d ∈ cs := (List.dropWhile_sublist _).mem (h ▸ List.mem_cons_self d rest)
    exact ⟨d, hmem, hd⟩

/-- Helper: the successful branch of `searchCore`, in terms of the
suffix surviving the leading skip. -/
theorem searchCore_eq_of_dropWhile {cs rest0 : List Char}
    (h : cs.dropWhile (fun c => !c.isDigit) = rest0) (hne : rest0 ≠ []) :
    searchCore cs =
      some ⟨some (digitsVal (rest0.takeWhile Char.isDigit)),
            (takeGroup (rest0.dropWhile Char.isDigit)).1,
            (takeGroup (takeGroup (rest0.dropWhile Char.isDigit)).2).1⟩ := by
  obtain ⟨a, l, rfl⟩ := List.exists_cons_of_ne_nil hne
  unfold searchCore
  rw [h]

/-- Helper: one `\.?(\d+)?` group step on a dot followed by a digit
run. -/
theorem takeGroup_dot (d r : List Char) (hd : d ≠ []) (hdig : ∀ c ∈ d, c.isDigit = true)
    (hr : ∀ c, r.head? = some c → c.isDigit = false) :
    takeGroup ('.' :: (d ++ r)) = (some (digitsVal d), r) := by
  obtain ⟨a, l, rfl⟩ := List.exists_cons_of_ne_nil hd
  have hdt : dotTail ('.' :: (a :: l ++ r)) = a :: l ++ r := by
    unfold dotTail
    rw [List.head?_cons, if_pos rfl, List.tail_cons]
  unfold takeGroup
  rw [hdt]
  rw [takeWhile_append_all _ _ r hdig, (takeWhile_head_false _ r hr).1, List.append_nil]
  rw [dropWhile_append_all _ _ r hdig, (takeWhile_head_false _ r hr).2]
  simp [List.isEmpty]

/-- Helper: `searchCore` on a string of the shape
`⟨junk⟩⟨digits⟩.⟨digits⟩.⟨digits⟩⟨suffix⟩` extracts the three digit
runs. -/
theorem searchCore_structured (ws d1 d2 d3 t : List Char)
    (hws : ∀ c ∈ ws, c.isDigit = false)
    (h1 : d1 ≠ []) (h1d : ∀ c ∈ d1, c.isDigit = true)
    (h2 : d2 ≠ []) (h2d : ∀ c ∈ d2, c.isDigit = true)
    (h3 : d3 ≠ []) (h3d : ∀ c ∈ d3, c.isDigit = true)
    (ht : ∀ c, t.head? = some c → c.isDigit = false) :
    searchCore (ws ++ (d1 ++ '.' :: (d2 ++ '.' :: (d3 ++ t)))) =
      some ⟨some (digitsVal d1), some (digitsVal d2), some (digitsVal d3)⟩ := by
  have hdot : ∀ (X : List Char) (c : Char), ('.' :: X).head? = some c → c.isDigit = false := by
    intro X c hc
    simp only [List.head?_cons, Option.some.injEq] at hc
    subst hc
    rfl
  have hd1head : ∀ c, (d1 ++ '.' :: (d2 ++ '.' :: (d3 ++ t))).head? = some c →
      (fun c => !c.isDigit) c = false := by
    obtain ⟨a, l, rfl⟩ := List.exists_cons_of_ne_nil h1
    intro c hc
    simp only [List.cons_append, List.head?_cons, Option.some.injEq] at hc
    subst hc
    simp [h1d a (by simp)]
  have hdrop : (ws ++ (d1 ++ '.' :: (d2 ++ '.' :: (d3 ++ t)))).dropWhile (fun c => !c.isDigit) =
      d1 ++ '.' :: (d2 ++ '.' :: (d3 ++ t)) := by
    rw [dropWhile_append_all _ ws _ (fun a ha => by simp [hws a ha])]
    exact (takeWhile_head_false _ _ hd1head).2
  have hne : d1 ++ '.' :: (d2 ++ '.' :: (d3 ++ t)) ≠ [] := by
    obtain ⟨a, l, rfl⟩ := List.exists_cons_of_ne_nil h1
    simp
  rw [searchCore_eq_of_dropWhile hdrop hne]
  have htake1 : (d1 ++ '.' :: (d2 ++ '.' :: (d3 ++ t))).takeWhile Char.isDigit = d1 := by
    rw [takeWhile_append_all _ _ _ h1d, (takeWhile_head_false Char.isDigit _ (hdot _)).1,
      List.append_nil]
  have hdrop1 : (d1 ++ '.' :: (d2 ++ '.' :: (d3 ++ t))).dropWhile Char.isDigit =
      '.' :: (d2 ++ '.' :: (d3 ++ t)) := by
    rw [dropWhile_append_all _ _ _ h1d]
    exact (takeWhile_head_false Char.isDigit _ (hdot _)).2
  rw [htake1, hdrop1, takeGroup_dot d2 _ h2 h2d (hdot _)]
  simp only
  rw [takeGroup_dot d3 t h3 h3d ht]

/-- C4: for every version string holding at least one digit the parse
succeeds, and a digit-free string parses to no version; the parse
extracts up to three dot-separated digit runs in order, leaving
missing groups absent rather than zero and discarding any trailing
non-numeric suffix: `"4.1.0-dev"` parses to `(4, 1, 0)`, a bare `"4"`
to `(4, absent, absent)`, and in general
`⟨junk⟩⟨digits⟩.⟨digits⟩.⟨digits⟩⟨suffix⟩` yields the three runs. -/
theorem claim_C4_parse_suricata_version :
    parse_suricata_version "4.1.0-dev" = some ⟨some 4, some 1, some 0⟩ ∧
    parse_suricata_version "4" = some ⟨some 4, none, none⟩ ∧
    (∀ s : String, (parse_suricata_version s).isSome = true ↔ ∃ c ∈ s.data, c.isDigit = true) ∧
    (∀ ws d1 d2 d3 t : List Char,
      (∀ c ∈ ws, c.isDigit = false) →
      d1 ≠ [] → (∀ c ∈ d1, c.isDigit = true) →
      d2 ≠ [] → (∀ c ∈ d2, c.isDigit = true) →
      d3 ≠ [] → (∀ c ∈ d3, c.isDigit = true) →
      (∀ c, t.head? = some c → c.isDigit = false) →
      searchCore (ws ++ (d1 ++ '.' :: (d2 ++ '.' :: (d3 ++ t)))) =
        some ⟨some (digitsVal d1), some (digitsVal d2), some (digitsVal d3)⟩) := by
  refine ⟨rfl, rfl, ?_, searchCore_structured⟩
  intro s
  rw [parse_suricata_version, searchCore_isSome_iff]
  exact digit_mem_strip_iff s.data

/-- Concrete instance of C4's structural clause: the parse core on
`v4.1.0-dev` (as a character list) yields `(4, 1, 0)`. -/
theorem claim_C4_witness :
    searchCore (['v'] ++ (['4'] ++ '.' :: (['1'] ++ '.' :: (['0'] ++ ['-', 'd', 'e', 'v'])))) =
      some ⟨some (digitsVal ['4']), some (digitsVal ['1']), some (digitsVal ['0'])⟩ :=
  claim_C4_parse_suricata_version.2.2.2 ['v'] ['4'] ['1'] ['0'] ['-', 'd', 'e', 'v']
    (by decide) (by decide) (by decide) (by decide) (by decide) (by decide) (by decide)
    (by intro c hc; simp only [List.head?_cons, Option.some.injEq] at hc; subst hc; rfl)

/-- Helper: under the `dictSteps` guard the traversal cannot raise. -/
theorem findValueParts_ok_of_dictSteps :
    ∀ (parts : List String) (obj : Json), dictSteps parts obj = true →
      ∃ r, findValueParts parts obj = .ok r := by
  intro parts
  induction parts with
  | nil => exact fun obj _ => ⟨obj, rfl⟩
  | cons part rest ih =>
    intro obj h
    cases obj with
    | obj kvs =>
      simp only [dictSteps] at h
      simp only [findValueParts]
      rcases hl : kvs.lookup (parsePart part).1 with _ | v
      · exact ⟨.null, rfl⟩
      · rw [hl] at h
        have h1 : (match (parsePart part).2 with
            | none => dictSteps rest v
            | some i =>
              match getIdx v i with
              | none => true
              | some w => dictSteps rest w) = true := h
        show ∃ r, (match (parsePart part).2 with
            | none => findValueParts rest v
            | some i =>
              match getIdx v i with
              | none => Except.ok Json.null
              | some w => findValueParts rest w) = Except.ok r
        rcases hp : (parsePart part).2 with _ | i
        · rw [hp] at h1
          exact ih v h1
        · rw [hp] at h1
          have h2 : (match getIdx v i with
              | none => true
              | some w => dictSteps rest w) = true := h1
          show ∃ r, (match getIdx v i with
              | none => Except.ok Json.null
              | some w => findValueParts rest w) = Except.ok r
          rcases hg : getIdx v i with _ | w
          · exact ⟨.null, rfl⟩
          · rw [hg] at h2
            exact ih w h2
    | null => simp [dictSteps] at h
    | bool b => simp [dictSteps] at h
    | int n => simp [dictSteps] at h
    | str s => simp [dictSteps] at h
    | arr l => simp [dictSteps] at h

/-- C2 counterexample: resolving the path `a.b` in the mapping
`{"a": 5}` raises a `TypeError` (`"b" in 5`), so `find_value` is not
exception-free — it neither returns a value nor the absent marker
there. -/
theorem claim_C2_counterexample :
    find_value "a.b" (.obj [("a", .int 5)]) = .error () ∧
    ¬ ∃ r, find_value "a.b" (.obj [("a", .int 5)]) = .ok r :=
  ⟨rfl, fun ⟨_, hr⟩ => Except.noConfusion hr⟩

/-- C2 (amended): `find_value` resolves `smtp.rcpt_to[0]` in the
component is looked up in a mapping node (`dictSteps`); an absent
mapping key at any component short-circuits to the absent marker, and
an absent or ill-typed bracket index short-circuits to the absent
marker.  (Without the mapping-node guard it can raise, per the
counterexample.) -/
theorem claim_C2_find_value_resolution :
    find_value "smtp.rcpt_to[0]"
      (.obj [("smtp", .obj [("rcpt_to", .arr [.str "a", .str "b"])])]) = .ok (.str "a") ∧
    (∀ (parts : List String) (obj : Json), dictSteps parts obj = true →
      ∃ r, findValueParts parts obj = .ok r) ∧
    (∀ (part : String) (rest : List String) (kvs : List (String × Json)),
      kvs.lookup (parsePart part).1 = none →
      findValueParts (part :: rest) (.obj kvs) = .ok .null) ∧
    (∀ (part : String) (rest : List String) (kvs : List (String × Json)) (v : Json) (i : Nat),
      (parsePart part).2 = some i →
      kvs.lookup (parsePart part).1 = some v →
      getIdx v i = none →
      findValueParts (part :: rest) (.obj kvs) = .ok .null) := by
  refine ⟨rfl, findValueParts_ok_of_dictSteps, ?_, ?_⟩
  · intro part rest kvs h
    simp only [findValueParts, h]
  · intro part rest kvs v i hp hl hg
    simp only [findValueParts, hl, hp, hg]

/-- Concrete instance of C2's safety clause: resolving
`smtp.rcpt_to[5]` (an out-of-range index) in the example structure
does not raise. -/
theorem claim_C2_witness :
    ∃ r, findValueParts ["smtp", "rcpt_to[5]"]
      (.obj [("smtp", .obj [("rcpt_to", .arr [.str "a", .str "b"])])]) = .ok r :=
  claim_C2_find_value_resolution.2.1 ["smtp", "rcpt_to[5]"]
    (.obj [("smtp", .obj [("rcpt_to", .arr [.str "a", .str "b"])])]) rfl

/-- Helper: the scan over trailing non-stats events keeps the
accumulator. -/
theorem statsScanAux_nonstats (post : List Json) (acc : Json)
    (h : ∀ ev ∈ post, NonStatsEvent ev) : statsScanAux post acc = .ok acc := by
  induction post with
  | nil => rfl
  | cons ev rest ih =>
    obtain ⟨t, ht, hne⟩ := h ev (by simp)
    simp only [statsScanAux, ht, hne]
    exact ih fun x hx => h x (by simp [hx])

/-- Helper: scanning a prefix of processable events only moves the
accumulator. -/
theorem statsScanAux_prefix (pre : List Json) (l : List Json) (acc : Json)
    (h : ∀ ev ∈ pre, ScannableEvent ev) :
    ∃ acc', statsScanAux (pre ++ l) acc = statsScanAux l acc' := by
  induction pre generalizing acc with
  | nil => exact ⟨acc, rfl⟩
  | cons ev rest ih =>
    obtain ⟨t, ht, hs⟩ := h ev (by simp)
    have hrest : ∀ x ∈ rest, ScannableEvent x := fun x hx => h x (by simp [hx])
    by_cases hp : pyEq t (.str "stats") = true
    · obtain ⟨s, hss⟩ := hs hp
      simp only [List.cons_append, statsScanAux, ht, hp, hss]
      exact ih s hrest
    · rw [Bool.not_eq_true] at hp
      simp only [List.cons_append, statsScanAux, ht, hp]
      exact ih acc hrest

/-- Helper: the key loop fails on the first mismatching key, naming
key, expected and actual. -/
theorem statsCheckKeys_first_mismatch (s : Json) (kvs1 : List (String × Json))
    (k : String) (v : Json) (kvs2 : List (String × Json)) (val : Json)
    (hpass : ∀ p ∈ kvs1, ∃ w, find_value p.1 s = .ok w ∧ pyEq w p.2 = true)
    (hk : find_value k s = .ok val) (hne : pyEq val v = false) :
    statsCheckKeys s (kvs1 ++ (k, v) :: kvs2) =
      .error (.test ("stats." ++ k ++ ": expected " ++ pyStr v ++ "; got " ++ pyStr val)) := by
  induction kvs1 with
  | nil =>
    simp only [List.nil_append, statsCheckKeys, hk, hne]
    rfl
  | cons p tl ih =>
    obtain ⟨w, hw, heq⟩ := hpass p (by simp)
    simp only [List.cons_append, statsCheckKeys, hw, heq]
    exact ih fun x hx => hpass x (by simp [hx])

/-- Helper: the key loop succeeds when every key resolves to its
declared value. -/
theorem statsCheckKeys_all_pass (s : Json) (kvs : List (String × Json))
    (hpass : ∀ p ∈ kvs, ∃ w, find_value p.1 s = .ok w ∧ pyEq w p.2 = true) :
    statsCheckKeys s kvs = .ok true := by
  induction kvs with
  | nil => rfl
  | cons p tl ih =>
    obtain ⟨w, hw, heq⟩ := hpass p (by simp)
    simp only [statsCheckKeys, hw, heq]
    exact ih fun x hx => hpass x (by simp [hx])

/-- C5: `StatsCheck` reads only the last stats-typed event — the scan
of a log whose suffix after some stats event holds no further stats
event retains exactly that event's `stats` substructure, and two logs
retaining the same substructure give every configuration the same
outcome; every declared key is resolved against that substructure:
when all keys match the check passes, and a mismatching key (after
matching ones) fails with a message naming the key, the declared and
the actual value. -/
theorem claim_C5_stats_check_last_stats :
    (∀ (cfg : Json) (evs evs' : List Json), statsScan evs = statsScan evs' →
      statsCheckRun cfg evs = statsCheckRun cfg evs') ∧
    (∀ (pre post : List Json) (e s : Json),
      (∀ ev ∈ pre, ScannableEvent ev) →
      getItem e "event_type" = .ok (.str "stats") →
      getItem e "stats" = .ok s →
      (∀ ev ∈ post, NonStatsEvent ev) →
      statsScan (pre ++ e :: post) = .ok s) ∧
    (∀ (kvs : List (String × Json)) (evs : List Json) (s : Json),
      statsScan evs = .ok s →
      (∀ p ∈ kvs, ∃ w, find_value p.1 s = .ok w ∧ pyEq w p.2 = true) →
      statsCheckRun (.obj kvs) evs = .ok true) ∧
    (∀ (kvs1 : List (String × Json)) (k : String) (v : Json)
       (kvs2 : List (String × Json)) (evs : List Json) (s val : Json),
      statsScan evs = .ok s →
      (∀ p ∈ kvs1, ∃ w, find_value p.1 s = .ok w ∧ pyEq w p.2 = true) →
      find_value k s = .ok val → pyEq val v = false →
      statsCheckRun (.obj (kvs1 ++ (k, v) :: kvs2)) evs =
        .error (.test ("stats." ++ k ++ ": expected " ++ pyStr v ++ "; got " ++ pyStr val))) := by
  refine ⟨?_, ?_, ?_, ?_⟩
  · intro cfg evs evs' h
    simp only [statsCheckRun, h]
  · intro pre post e s hpre het hes hpost
    obtain ⟨acc', hacc⟩ := statsScanAux_prefix pre (e :: post) .null hpre
    rw [statsScan, hacc]
    simp only [statsScanAux, het]
    have : pyEq (.str "stats") (.str "stats") = true := rfl
    simp only [this, hes]
    exact statsScanAux_nonstats post s hpost
  · intro kvs evs s hscan hpass
    simp only [statsCheckRun, hscan]
    exact statsCheckKeys_all_pass s kvs hpass
  · intro kvs1 k v kvs2 evs s val hscan hpass hk hne
    simp only [statsCheckRun, hscan]
    exact statsCheckKeys_first_mismatch s kvs1 k v kvs2 val hpass hk hne

/-- Concrete instance of C5: with two stats snapshots, only the later
one (with `decoder.pkts` = 2) is checked, so expecting 2 passes. -/
theorem claim_C5_witness :
    statsCheckRun (.obj [("decoder.pkts", .int 2)])
      [.obj [("event_type", .str "stats"), ("stats", .obj [("decoder", .obj [("pkts", .int 1)])])],
       .obj [("event_type", .str "stats"), ("stats", .obj [("decoder", .obj [("pkts", .int 2)])])]] =
      .ok true :=
  claim_C5_stats_check_last_stats.2.2.1 [("decoder.pkts", .int 2)] _
    (.obj [("decoder", .obj [("pkts", .int 2)])]) rfl
    (by
      intro p hp
      simp only [List.mem_singleton] at hp
      subst hp
      exact ⟨.int 2, rfl, rfl⟩)

/-- Helper: `splitDot` never returns an empty list of components. -/
theorem splitDot_ne_nil (cs : List Char) : splitDot cs ≠ [] := by
  induction cs with
  | nil => simp [splitDot]
  | cons c rest ih =>
    simp only [splitDot]
    by_cases hc : c = '.'
    · simp [hc]
    · rw [if_neg hc]
      rcases h : splitDot rest with _ | ⟨t, ts⟩
      · exact absurd h ih
      · simp

/-- Helper: resolving any path against Python `None` raises — the
membership test `name in None` is a `TypeError`. -/
theorem find_value_null (k : String) : find_value k .null = .error () := by
  rw [find_value]
  rcases h : (splitDot k.data).map String.mk with _ | ⟨p, ps⟩
  · exact absurd (List.map_eq_nil_iff.mp h) (splitDot_ne_nil k.data)
  · rfl

/-- C9: a `StatsCheck` declaring at least one key against a log with
no stats-typed event raises an uncaught exception — the `stats`
accumulator is still `None` when the first key is resolved against it,
and `name in None` is a `TypeError` — rather than the descriptive
per-key mismatch `TestError`. -/
theorem claim_C9_stats_check_no_stats_event
    (k : String) (v : Json) (rest : List (String × Json)) (evs : List Json)
    (h : ∀ ev ∈ evs, NonStatsEvent ev) :
    statsCheckRun (.obj ((k, v) :: rest)) evs = .error .py ∧
    find_value k .null = .error () ∧
    ∀ m, statsCheckRun (.obj ((k, v) :: rest)) evs ≠ .error (.test m) := by
  have hscan : statsScan evs = .ok .null := statsScanAux_nonstats evs .null h
  have hrun : statsCheckRun (.obj ((k, v) :: rest)) evs = .error .py := by
    simp only [statsCheckRun, hscan, statsCheckKeys, find_value_null k]
  exact ⟨hrun, find_value_null k, fun m hm => by rw [hrun] at hm; cases hm⟩

/-- Concrete instance of C9: a one-key stats check over a log holding
only a `flow` event crashes with an uncaught exception. -/
theorem claim_C9_witness :
    statsCheckRun (.obj [("x", .int 1)]) [.obj [("event_type", .str "flow")]] = .error .py ∧
    find_value "x" .null = .error () ∧
    ∀ m, statsCheckRun (.obj [("x", .int 1)]) [.obj [("event_type", .str "flow")]] ≠
      .error (.test m) :=
  claim_C9_stats_check_no_stats_event "x" (.int 1) [] [.obj [("event_type", .str "flow")]]
    (by
      intro ev hev
      simp only [List.mem_singleton] at hev
      subst hev
      exact ⟨.str "flow", rfl, rfl⟩)

/-- Helper: `FilterCheck.match`'s entry loop accepts exactly when
every entry holds. -/
theorem filterMatchEntries_iff (event : Json) (kvs : List (String × Json)) :
    filterMatchEntries event kvs = .ok true ↔
      ∀ p ∈ kvs, matchEntryHolds event p.1 p.2 = true := by
  induction kvs with
  | nil => simp [filterMatchEntries]
  | cons p tl ih =>
    obtain ⟨k, expected⟩ := p
    rw [List.forall_mem_cons, ← ih]
    by_cases hk : (k == "has-key") = true
    · simp only [filterMatchEntries, matchEntryHolds, hk, if_true]
      cases expected with
      | str pth =>
        rcases hf : find_value pth event with e | v
        · simp [hf]
        · rcases v <;> simp [hf]
      | null => simp
      | bool b => simp
      | int n => simp
      | arr l => simp
      | obj kvs2 => simp
    · by_cases hk2 : (k == "not-has-key") = true
      · simp only [filterMatchEntries, matchEntryHolds, hk, hk2, if_true, if_false,
          Bool.false_eq_true]
        cases expected with
        | str pth =>
          rcases hf : find_value pth event with e | v
          · simp [hf]
          · rcases v <;> simp [hf]
        | null => simp
        | bool b => simp
        | int n => simp
        | arr l => simp
        | obj kvs2 => simp
      · simp only [filterMatchEntries, matchEntryHolds, hk, hk2, if_false, Bool.false_eq_true]
        rcases hf : find_value k event with e | v
        · simp [hf]
        · rcases hpe : pyEq v expected <;> simp [hf, hpe]

/-- Helper: Python equality of two integers is integer equality. -/
theorem pyEq_int (a b : Int) : pyEq (.int a) (.int b) = (a == b) := rfl

/-- Helper: when no event makes the matcher raise, the counting loop
returns the number of matching events. -/
theorem filterCount_countP (cfg : Json) (evs : List Json)
    (h : ∀ ev ∈ evs, ∃ b, filterMatch cfg ev = .ok b) :
    filterCount cfg evs = .ok (evs.countP fun ev =>
      match filterMatch cfg ev with | .ok true => true | _ => false) := by
  induction evs with
  | nil => rfl
  | cons e rest ih =>
    obtain ⟨b, hb⟩ := h e (by simp)
    have hrest := ih fun x hx => h x (by simp [hx])
    simp only [filterCount, hb, hrest, List.countP_cons, hb]
    cases b <;> simp

/-- Helper: a count mismatch always makes `FilterCheck.run` fail with
some raised exception. -/
theorem filterCheckRun_error_of_ne (cfg : Json) (evs : List Json) (n : Int) (actual : Nat)
    (hc : getItem cfg "count" = .ok (.int n)) (hcount : filterCount cfg evs = .ok actual)
    (hne : (actual : Int) ≠ n) : ∃ e, filterCheckRun cfg evs = .error e := by
  have hpe : pyEq (.int actual) (.int n) = false := by
    rw [pyEq_int]
    simpa using hne
  simp only [filterCheckRun, hcount, hc, hpe, Bool.false_eq_true, if_false]
  rcases hm : memJ "comment" cfg with u | b
  · exact ⟨.py, rfl⟩
  · cases b
    · rcases hd : fmtD (.int n) with u | d
      · exact ⟨.py, rfl⟩
      · exact ⟨_, rfl⟩
    · rcases hg : getItem cfg "comment" with u | c
      · exact ⟨.py, rfl⟩
      · rcases hd : fmtD (.int n) with u | d
        · exact ⟨.py, rfl⟩
        · exact ⟨_, rfl⟩

/-- C6: an event matches a filter iff every declared match entry
holds (`has-key`: resolved path non-absent; `not-has-key`: resolved
path absent; anything else: Python equality of resolved and declared
value); the counting loop counts exactly the matching events; the
check passes iff that count equals the declared `count`; and a
mismatch fails with a message naming the expected and actual counts,
prefixed by the declared comment when there is one. -/
theorem claim_C6_filter_check :
    (∀ (cfg event : Json) (kvs : List (String × Json)),
      getItem cfg "match" = .ok (.obj kvs) →
      (filterMatch cfg event = .ok true ↔ ∀ p ∈ kvs, matchEntryHolds event p.1 p.2 = true)) ∧
    (∀ (cfg : Json) (evs : List Json),
      (∀ ev ∈ evs, ∃ b, filterMatch cfg ev = .ok b) →
      filterCount cfg evs = .ok (evs.countP fun ev =>
        match filterMatch cfg ev with | .ok true => true | _ => false)) ∧
    (∀ (cfg : Json) (evs : List Json) (n : Int) (actual : Nat),
      getItem cfg "count" = .ok (.int n) → filterCount cfg evs = .ok actual →
      (filterCheckRun cfg evs = .ok true ↔ (actual : Int) = n)) ∧
    (∀ (cfg : Json) (evs : List Json) (n : Int) (actual : Nat),
      getItem cfg "count" = .ok (.int n) → filterCount cfg evs = .ok actual →
      (actual : Int) ≠ n → memJ "comment" cfg = .ok false →
      filterCheckRun cfg evs =
        .error (.test ("expected " ++ toString n ++ " matches; got " ++ toString actual ++
          " for filter " ++ pyStr cfg))) ∧
    (∀ (cfg : Json) (evs : List Json) (n : Int) (actual : Nat) (c : Json),
      getItem cfg "count" = .ok (.int n) → filterCount cfg evs = .ok actual →
      (actual : Int) ≠ n → memJ "comment" cfg = .ok true → getItem cfg "comment" = .ok c →
      filterCheckRun cfg evs =
        .error (.test (pyStr c ++ ": expected " ++ toString n ++ ", got " ++
          toString actual))) := by
  refine ⟨?_, filterCount_countP, ?_, ?_, ?_⟩
  · intro cfg event kvs h
    rw [filterMatch, h]
    exact filterMatchEntries_iff event kvs
  · intro cfg evs n actual hc hcount
    constructor
    · intro h
      by_contra hne
      obtain ⟨e, he⟩ := filterCheckRun_error_of_ne cfg evs n actual hc hcount hne
      rw [he] at h
      cases h
    · intro h
      have hpe : pyEq (.int actual) (.int n) = true := by
        rw [pyEq_int, h]
        simp
      simp only [filterCheckRun, hcount, hc, hpe, if_true]
  · intro cfg evs n actual hc hcount hne hcom
    have hpe : pyEq (.int actual) (.int n) = false := by
      rw [pyEq_int]
      simpa using hne
    simp only [filterCheckRun, hcount, hc, hpe, Bool.false_eq_true, if_false, hcom]
    rfl
  · intro cfg evs n actual c hc hcount hne hcom hgc
    have hpe : pyEq (.int actual) (.int n) = false := by
      rw [pyEq_int]
      simpa using hne
    simp only [filterCheckRun, hcount, hc, hpe, Bool.false_eq_true, if_false, hcom, hgc]
    rfl

/-- Concrete instance of C6: a filter declaring `count: 1` over a log
with exactly one matching event passes. -/
theorem claim_C6_witness :
    filterCheckRun (.obj [("count", .int 1), ("match", .obj [("event_type", .str "alert")])])
      [.obj [("event_type", .str "alert")], .obj [("event_type", .str "flow")]] = .ok true :=
  (claim_C6_filter_check.2.2.1
    (.obj [("count", .int 1), ("match", .obj [("event_type", .str "alert")])])
    [.obj [("event_type", .str "alert")], .obj [("event_type", .str "flow")]]
    1 1 rfl rfl).mpr rfl

/-- C1 counterexample: a specification whose skip condition matches
(uid 0 with a declared message) and whose requires condition is unmet
(a missing feature).  `check_skip` alone would raise the declared skip
message, but `TestRunner.run` calls `check_requires` first, so the
outcome carries the requires message, not the declared skip message —
the skip conditions are not evaluated first and do not win. -/
theorem claim_C1_counterexample :
    runTest envBase
      (.obj [("skip", .arr [.obj [("uid", .int 0), ("msg", .str "skip msg")]]),
             ("requires", .obj [("features", .arr [.str "F"])])]) =
      (.error (.unsat "requires feature F"), ⟨0, 0⟩) ∧
    checkSkip envBase
      (.obj [("skip", .arr [.obj [("uid", .int 0), ("msg", .str "skip msg")]]),
             ("requires", .obj [("features", .arr [.str "F"])])]) =
      .error (.unsat "skip msg") ∧
    "requires feature F" ≠ "skip msg" :=
  ⟨rfl, rfl, by decide⟩

/-- C1 (amended): the requires conditions are evaluated before the
skip conditions — when any requires condition is unmet the run raises
its message even if a skip condition also matches, and the skip gate
is reached (and its declared or default message raised) only when the
whole requires gate passes; both gates' failures are reported as
Skip. -/
theorem claim_C1_requires_evaluated_before_skip :
    (∀ (env : Env) (cfg : Json) (e : Exc),
      checkRequires env cfg = .error e → runTest env cfg = (.error e, ⟨0, 0⟩)) ∧
    (∀ (env : Env) (cfg : Json) (e : Exc),
      checkRequires env cfg = .ok () → checkSkip env cfg = .error e →
      runTest env cfg = (.error e, ⟨0, 0⟩)) ∧
    (∀ m : String, classify (.error (.unsat m)) = .skipped) := by
  refine ⟨?_, ?_, fun m => rfl⟩
  · intro env cfg e h
    simp only [runTest, h]
  · intro env cfg e h1 h2
    simp only [runTest, h1, h2]

/-- Concrete instance of C1's amended claim: an unmet requires
condition (a missing environment variable) makes the run raise its
message. -/
theorem claim_C1_witness :
    runTest envBase (.obj [("requires", .obj [("env", .arr [.str "MYVAR"])])]) =
      (.error (.unsat "requires env var MYVAR"), ⟨0, 0⟩) :=
  claim_C1_requires_evaluated_before_skip.1 envBase
    (.obj [("requires", .obj [("env", .arr [.str "MYVAR"])])])
    (.unsat "requires env var MYVAR") rfl

/-- Helper: a successful lookup means the key-membership test
succeeds. -/
theorem any_key_of_lookup (k : String) :
    ∀ (kvs : List (String × Json)) (v : Json), kvs.lookup k = some v →
      (kvs.any fun kv => kv.1 == k) = true := by
  intro kvs
  induction kvs with
  | nil => intro v h; simp [List.lookup] at h
  | cons p tl ih =>
    intro v h
    obtain ⟨a, b⟩ := p
    simp only [List.lookup] at h
    by_cases hk : (k == a) = true
    · simp only [List.any_cons, Bool.or_eq_true]
      exact Or.inl (by rw [beq_iff_eq]; exact (beq_iff_eq.mp hk).symm)
    · rw [Bool.not_eq_true] at hk
      rw [hk] at h
      simp only [List.any_cons, Bool.or_eq_true]
      exact Or.inr (ih v h)

/-- Helper: key membership means the lookup succeeds. -/
theorem lookup_some_of_any (k : String) :
    ∀ (kvs : List (String × Json)), (kvs.any fun kv => kv.1 == k) = true →
      ∃ v, kvs.lookup k = some v := by
  intro kvs
  induction kvs with
  | nil => intro h; simp at h
  | cons p tl ih =>
    intro h
    obtain ⟨a, b⟩ := p
    simp only [List.lookup]
    by_cases hk : (k == a) = true
    · rw [hk]
      exact ⟨b, rfl⟩
    · rw [Bool.not_eq_true] at hk
      rw [hk]
      apply ih
      simp only [List.any_cons, Bool.or_eq_true] at h
      rcases h with h | h
      · rw [beq_iff_eq] at h
        rw [h] at hk
        rw [beq_self_eq_true] at hk
        cases hk
      · exact h

/-- Helper: the expected exit code lookup never raises on a mapping
specification. -/
theorem getExpectedExit_obj_ok (kvs : List (String × Json)) :
    ∃ v, getExpectedExit (.obj kvs) = .ok v := by
  rcases hb : (kvs.any fun kv => kv.1 == "exit-code") with _ | _
  · exact ⟨.int 0, by simp [getExpectedExit, memJ, hb]⟩
  · obtain ⟨v, hv⟩ := lookup_some_of_any "exit-code" kvs hb
    exact ⟨v, by simp [getExpectedExit, memJ, hb, getItem, hv]⟩

/-- C10: a specification declaring `count: 0` that passes both gates
and whose argument vector builds spawns the subject zero times, runs
no checks, and is reported Passed. -/
theorem claim_C10_count_zero_passes (env : Env) (cfg : Json) (l : List String)
    (hreq : checkRequires env cfg = .ok ())
    (hskip : checkSkip env cfg = .ok ())
    (hargs : getArgs env cfg = .ok l)
    (hcount : getItem cfg "count" = .ok (.int 0)) :
    runTest env cfg = (.ok true, ⟨0, 0⟩) ∧ classify (runTest env cfg).1 = .passed := by
  cases cfg with
  | obj kvs =>
    rcases hl : kvs.lookup "count" with _ | v
    · rw [getItem, hl] at hcount
      cases hcount
    · rw [getItem, hl] at hcount
      have hv : v = .int 0 := by
        cases hcount
        rfl
      subst hv
      have hmem : memJ "count" (.obj kvs) = .ok true := by
        rw [memJ, any_key_of_lookup "count" kvs _ hl]
      have hgc : getCount (.obj kvs) = .ok 0 := by
        rw [getCount, hmem, getItem, hl]
        rfl
      obtain ⟨exp, hexp⟩ := getExpectedExit_obj_ok kvs
      have hrun : runTest env (.obj kvs) = (.ok true, ⟨0, 0⟩) := by
        rw [runTest, hreq, hskip, hargs, hgc, hexp]
        rfl
      exact ⟨hrun, by rw [hrun]; rfl⟩
  | null => simp [getItem] at hcount
  | bool b => simp [getItem] at hcount
  | int n => simp [getItem] at hcount
  | str s => simp [getItem] at hcount
  | arr a => simp [getItem] at hcount

/-- Concrete instance of C10: `count: 0` with a declared command
passes without spawning. -/
theorem claim_C10_witness :
    runTest envBase (.obj [("count", .int 0), ("command", .str "true")]) =
      (.ok true, ⟨0, 0⟩) ∧
    classify (runTest envBase (.obj [("count", .int 0), ("command", .str "true")])).1 =
      .passed :=
  claim_C10_count_zero_passes envBase (.obj [("count", .int 0), ("command", .str "true")])
    ["true"] rfl rfl rfl rfl

/-- C8: a test directory whose glob finds two or more pcap files,
whose specification declares neither `pcap` nor `command`, and which
passes both gates, raises the configuration error
`"More than 1 pcap file found"` — a `TestError`-severity hard failure
classified as failed, not skipped — with the subject process spawned
zero times. -/
theorem claim_C8_multiple_pcaps_config_error (env : Env) (cfg : Json) (extra : List String)
    (hreq : checkRequires env cfg = .ok ())
    (hskip : checkSkip env cfg = .ok ())
    (hcmd : memJ "command" cfg = .ok false)
    (hpcap : memJ "pcap" cfg = .ok false)
    (hargs : configArgs cfg = .ok extra)
    (hn : 2 ≤ env.pcapFiles.length) :
    runTest env cfg = (.error (.test "More than 1 pcap file found"), ⟨0, 0⟩) ∧
    classify (runTest env cfg).1 = .failed ∧
    classify (runTest env cfg).1 ≠ .skipped := by
  have hda : default_args env cfg = .error (.test "More than 1 pcap file found") := by
    rw [default_args, hargs]
    simp only [hpcap]
    rw [if_pos (by omega)]
  have hga : getArgs env cfg = .error (.test "More than 1 pcap file found") := by
    rw [getArgs, hcmd, hda]
  have hrun : runTest env cfg = (.error (.test "More than 1 pcap file found"), ⟨0, 0⟩) := by
    rw [runTest, hreq, hskip, hga]
  exact ⟨hrun, by rw [hrun]; rfl, by rw [hrun]; simp [classify]⟩

/-- Concrete instance of C8: an empty specification over a directory
with two pcap files fails with the configuration error, spawning
nothing. -/
theorem claim_C8_witness :
    runTest { envBase with pcapFiles := ["a.pcap", "b.pcap"] } (.obj []) =
      (.error (.test "More than 1 pcap file found"), ⟨0, 0⟩) ∧
    classify (runTest { envBase with pcapFiles := ["a.pcap", "b.pcap"] } (.obj [])).1 =
      .failed ∧
    classify (runTest { envBase with pcapFiles := ["a.pcap", "b.pcap"] } (.obj [])).1 ≠
      .skipped :=
  claim_C8_multiple_pcaps_config_error { envBase with pcapFiles := ["a.pcap", "b.pcap"] }
    (.obj []) [] rfl rfl rfl rfl rfl (by decide)
